import Mathlib

/-!
Verification of the bernerspace credential-lifecycle core against its
specification.  The Python sources are shallowly embedded as executable Lean
definitions:

* `src/utils/crypto.py`        — crypto envelope (Fernet/MultiFernet key ring)
* `src/core/storeage_manager.py` — DB-backed token store (upsert / read)
* `src/services/google/service.py` and `auth_tools.py` — Google session
* `src/services/slack/slack_service.py` — Slack session
* `src/middleware/auth.py`     — JWT verification, JWKS cache, header passthrough

Strings are modelled as `List Char`; machine-level details of the third-party
`cryptography.fernet` and `pyjwt` libraries are modelled by their documented
contracts (authenticated symmetric encryption, signature verification), as
idealized executable functions.
-/

namespace Bernerspace

/-- Python strings are modelled as lists of characters. -/
abbrev Str := List Char

/-- Model of Python `str.strip()`: drop leading and trailing whitespace. -/
def pyStrip (s : Str) : Str :=
  ((s.dropWhile Char.isWhitespace).reverse.dropWhile Char.isWhitespace).reverse

/-! ### Idealized model of `cryptography.fernet`

A Fernet key is a 44-character urlsafe-base64 text (32 bytes encoded).  The
library contract is: `Fernet(k)` succeeds exactly for well-formed keys;
`f.encrypt` produces a token that `f.decrypt` inverts; decrypting a token with
a key other than the one that produced it raises `InvalidToken` (the HMAC
check fails).  We realize that contract with a concrete injective pairing:
a token is the key followed by the plaintext, and decryption succeeds exactly
when the expected key is a prefix of the token. -/

/-- A well-formed Fernet key: 44 characters (urlsafe base64 of 32 bytes). -/
def fernetKeyOk (k : Str) : Bool := k.length == 44

/-- Idealized `Fernet.encrypt`: the token determines the key and plaintext. -/
def fernetEncrypt (k pt : Str) : Str := k ++ pt

/-- Idealized `Fernet.decrypt`: succeeds only for tokens produced under `k`
(`none` models raising `InvalidToken`). -/
def fernetDecrypt (k ct : Str) : Option Str :=
  if k.isPrefixOf ct then some (ct.drop k.length) else none

/-- The version tag prepended to ciphertext, `CIPHERTEXT_PREFIX = "enc:v1:"`
in `crypto.py`. -/
def ciphertextTag : Str := "enc:v1:".toList

/-- The key list cleaning done by `_build_fernet`:
`[k.strip() for k in keys if k and k.strip()]`. -/
def clean_keys (keys : List Str) : List Str :=
  (keys.filter (fun k => ¬ k.isEmpty ∧ ¬ (pyStrip k).isEmpty)).map pyStrip

/-- Model of `_build_fernet` in `crypto.py`: returns the ordered key ring of a
`MultiFernet`, or `none` when there is no usable key (empty cleaned list, or a
key that `Fernet(k)` rejects — in which case the `except` branch returns
`None`). -/
def _build_fernet (keys : List Str) : Option (List Str) :=
  if (clean_keys keys).isEmpty then none
  else if (clean_keys keys).all fernetKeyOk then some (clean_keys keys) else none

/-- A string usable as one entry of the key ring: nonblank and well-formed
after stripping. -/
def validFernetKey (k : Str) : Bool :=
  ¬ (pyStrip k).isEmpty ∧ fernetKeyOk (pyStrip k)

/-- `MultiFernet.encrypt` performs all encryption using the first key. -/
def multiEncrypt (fs : List Str) (pt : Str) : Str :=
  fernetEncrypt (fs.headD []) pt

/-- `MultiFernet.decrypt` tries each key in order until one succeeds;
`none` models raising `InvalidToken` after all keys fail. -/
def multiDecrypt : List Str → Str → Option Str
  | [], _ => none
  | k :: ks, ct =>
    match fernetDecrypt k ct with
    | some pt => some pt
    | none => multiDecrypt ks ct

/-- Model of `encrypt_text` in `crypto.py`.  `none` models raising
`ValueError("TOKEN_ENCRYPTION_KEYS not configured or invalid")`. -/
def encrypt_text (plaintext : Str) (keys : List Str) : Option Str :=
  match _build_fernet keys with
  | none => none
  | some f => some (ciphertextTag ++ multiEncrypt f plaintext)

/-- Model of `decrypt_text` in `crypto.py`: returns
`(plaintext_or_none, was_encrypted)`. -/
def decrypt_text (maybe_ciphertext : Str) (keys : List Str) : Option Str × Bool :=
  if ¬ ciphertextTag.isPrefixOf maybe_ciphertext then
    (some maybe_ciphertext, false)
  else
    match _build_fernet keys with
    | none => (none, true)
    | some f =>
      match multiDecrypt f (maybe_ciphertext.drop ciphertextTag.length) with
      | some pt => (some pt, true)
      | none => (none, true)

/-! ### Basic facts about the crypto envelope -/

theorem pyStrip_nil : pyStrip [] = [] := rfl

theorem validFernetKey_iff (k : Str) :
    validFernetKey k = true ↔ pyStrip k ≠ [] ∧ (pyStrip k).length = 44 := by
  unfold validFernetKey fernetKeyOk
  simp [List.isEmpty_iff]

theorem clean_keys_of_valid (keys : List Str)
    (h : ∀ k ∈ keys, validFernetKey k = true) :
    clean_keys keys = keys.map pyStrip := by
  unfold clean_keys
  have hfilter : keys.filter (fun k => ¬ k.isEmpty ∧ ¬ (pyStrip k).isEmpty) = keys := by
    apply List.filter_eq_self.mpr
    intro k hk
    have hv := (validFernetKey_iff k).mp (h k hk)
    have hkne : k ≠ [] := by
      intro hke
      exact hv.1 (by rw [hke, pyStrip_nil])
    simp [List.isEmpty_iff, hkne, hv.1]
  rw [hfilter]

theorem _build_fernet_of_valid (keys : List Str) (hne : keys ≠ [])
    (h : ∀ k ∈ keys, validFernetKey k = true) :
    _build_fernet keys = some (keys.map pyStrip) := by
  unfold _build_fernet
  rw [clean_keys_of_valid keys h]
  have h1 : (keys.map pyStrip).isEmpty = false := by
    cases keys with
    | nil => exact absurd rfl hne
    | cons a t => simp
  have h2 : (keys.map pyStrip).all fernetKeyOk = true := by
    simp only [List.all_eq_true, List.mem_map]
    rintro x ⟨k, hk, rfl⟩
    have hv := (validFernetKey_iff k).mp (h k hk)
    unfold fernetKeyOk
    simp [hv.2]
  simp [h1, h2]

/-- Soundness of the key-ring constructor: a successful `_build_fernet` returns
the nonempty cleaned key list, every entry well-formed. -/
theorem _build_fernet_sound (keys f : List Str)
    (hb : _build_fernet keys = some f) :
    f = clean_keys keys ∧ f ≠ [] ∧ f.all fernetKeyOk = true := by
  unfold _build_fernet at hb
  by_cases hc : (clean_keys keys).isEmpty
  · simp [hc] at hb
  · by_cases ha : (clean_keys keys).all fernetKeyOk = true
    · simp only [Bool.not_eq_true] at hc
      rw [hc] at hb
      simp only [Bool.false_eq_true, if_false, ha, if_true] at hb
      injection hb with hb
      refine ⟨hb.symm, ?_, ?_⟩
      · rw [← hb]
        intro he
        rw [he] at hc
        simp at hc
      · rw [← hb]; exact ha
    · simp only [Bool.not_eq_true] at hc
      rw [hc] at hb
      simp only [Bool.false_eq_true, if_false] at hb
      rw [if_neg] at hb
      · cases hb
      · simpa using ha

theorem fernetDecrypt_encrypt (k pt : Str) :
    fernetDecrypt k (fernetEncrypt k pt) = some pt := by
  unfold fernetDecrypt fernetEncrypt
  have hpre : k.isPrefixOf (k ++ pt) = true := by
    rw [List.isPrefixOf_iff_prefix]
    exact List.prefix_append k pt
  simp only [hpre, if_true]
  rw [List.drop_left]

/-- Shared round-trip lemma: whenever `encrypt_text` succeeds, decrypting its
output with the same key list recovers the plaintext. -/
theorem decrypt_text_encrypt_text (pt : Str) (keys : List Str) (ct : Str)
    (henc : encrypt_text pt keys = some ct) :
    decrypt_text ct keys = (some pt, true) := by
  unfold encrypt_text at henc
  cases hb : _build_fernet keys with
  | none => rw [hb] at henc; cases henc
  | some f =>
    rw [hb] at henc
    injection henc with hct
    obtain ⟨_, hfne, _⟩ := _build_fernet_sound keys f hb
    cases f with
    | nil => exact absurd rfl hfne
    | cons f0 frest =>
      subst hct
      unfold decrypt_text
      have hpre : ciphertextTag.isPrefixOf
          (ciphertextTag ++ multiEncrypt (f0 :: frest) pt) = true := by
        rw [List.isPrefixOf_iff_prefix]
        exact List.prefix_append _ _
      rw [if_neg (by simp [hpre])]
      rw [hb, List.drop_left]
      unfold multiEncrypt multiDecrypt
      simp only [List.headD_cons]
      rw [fernetDecrypt_encrypt]

/-! ### Model of the JSON payload serialization

The token payload handled by `json.dumps` / `json.loads` in
`storeage_manager.py` is a flat dictionary; we model it as an association
list of strings and model the serializer by a concrete injective,
self-delimiting encoding with a total decoder that rejects malformed input
(as `json.loads` raises on non-JSON text).  Each string is length-prefixed in
unary (`n` ones, a zero, then the payload), and a dictionary is a count
followed by its key/value pairs. -/

/-- A token payload dictionary (`token_data : Dict` in the Python sources). -/
abbrev TokenData := List (Str × Str)

/-- Serialize one string: unary length, separator `'0'`, then the content. -/
def serStr (s : Str) : Str := List.replicate s.length '1' ++ '0' :: s

/-- Serialize the key/value pairs of a dictionary in order. -/
def serPairs : TokenData → Str
  | [] => []
  | (k, v) :: t => serStr k ++ serStr v ++ serPairs t

/-- Model of `json.dumps` on a token payload dictionary. -/
def jsonDumps (d : TokenData) : Str :=
  List.replicate d.length '1' ++ '0' :: serPairs d

/-- Decode one serialized string, returning it and the remaining input. -/
def deStr (s : Str) : Option (Str × Str) :=
  match s.drop (s.takeWhile (fun c => c == '1')).length with
  | '0' :: r =>
    if r.length < (s.takeWhile (fun c => c == '1')).length then none
    else some (r.take (s.takeWhile (fun c => c == '1')).length,
               r.drop (s.takeWhile (fun c => c == '1')).length)
  | _ => none

/-- Decode `n` key/value pairs, returning them and the remaining input. -/
def dePairs : Nat → Str → Option (TokenData × Str)
  | 0, s => some ([], s)
  | n + 1, s => do
    let (k, s1) ← deStr s
    let (v, s2) ← deStr s1
    let (t, s3) ← dePairs n s2
    pure ((k, v) :: t, s3)

/-- Model of `json.loads` on a stored token payload: `none` models raising a
decode error on text that is not a serialized dictionary. -/
def jsonLoads (s : Str) : Option TokenData :=
  match s.drop (s.takeWhile (fun c => c == '1')).length with
  | '0' :: r =>
    match dePairs (s.takeWhile (fun c => c == '1')).length r with
    | some (d, []) => some d
    | _ => none
  | _ => none

theorem takeWhile_ones (n : Nat) (t : Str) :
    (List.replicate n '1' ++ '0' :: t).takeWhile (fun c => c == '1')
      = List.replicate n '1' := by
  induction n with
  | zero => simp [List.takeWhile]
  | succ m ih =>
    rw [List.replicate_succ]
    simp [List.takeWhile_cons, ih]

theorem drop_replicate_append (n : Nat) (c : Char) (t : Str) :
    (List.replicate n c ++ t).drop n = t := by
  have h := List.drop_left (List.replicate n c) t
  rwa [List.length_replicate] at h

theorem deStr_serStr (s rest : Str) :
    deStr (serStr s ++ rest) = some (s, rest) := by
  unfold deStr serStr
  rw [List.append_assoc, List.cons_append, takeWhile_ones, List.length_replicate,
    drop_replicate_append]
  have hlen : ¬ (s ++ rest).length < s.length := by
    rw [List.length_append]; omega
  simp only [hlen, if_false]
  rw [List.take_left, List.drop_left]

theorem dePairs_serPairs (d : TokenData) (rest : Str) :
    dePairs d.length (serPairs d ++ rest) = some (d, rest) := by
  induction d generalizing rest with
  | nil => simp [dePairs, serPairs]
  | cons kv t ih =>
    obtain ⟨k, v⟩ := kv
    simp only [serPairs, List.length_cons, dePairs]
    rw [List.append_assoc, List.append_assoc, deStr_serStr]
    simp only [Option.bind_eq_bind, Option.some_bind]
    rw [deStr_serStr]
    simp only [Option.some_bind]
    rw [ih]
    rfl

/-- The serializer round-trips: parsing a dumped dictionary recovers it. -/
theorem jsonLoads_jsonDumps (d : TokenData) : jsonLoads (jsonDumps d) = some d := by
  unfold jsonLoads jsonDumps
  rw [takeWhile_ones, List.length_replicate, drop_replicate_append]
  have h := dePairs_serPairs d []
  rw [List.append_nil] at h
  show (match dePairs d.length (serPairs d) with
    | some (d, []) => some d
    | _ => none) = some d
  rw [h]

/-- A dumped dictionary never carries the ciphertext version tag: it starts
with `'0'` or `'1'` while the tag starts with `'e'` (in Python,
`json.dumps` output starts with a brace). -/
theorem ciphertextTag_not_isPrefixOf_jsonDumps (d : TokenData) :
    ciphertextTag.isPrefixOf (jsonDumps d) = false := by
  unfold jsonDumps
  cases d with
  | nil => rfl
  | cons kv t => rw [List.length_cons, List.replicate_succ]; rfl

/-- A ciphertext-tagged value never parses as a payload dictionary
(`json.loads` raises on the `enc:v1:` envelope). -/
theorem jsonLoads_tagged (x : Str) : jsonLoads (ciphertextTag ++ x) = none := by
  unfold jsonLoads ciphertextTag
  rfl

theorem jsonDumps_ne_nil (d : TokenData) : jsonDumps d ≠ [] := by
  unfold jsonDumps
  cases d with
  | nil => simp
  | cons kv t => simp

/-! ### Credential store (`TokenStorageManager` in `storeage_manager.py`)

The database table `oauth_tokens` is modelled as a list of rows; SQLAlchemy
failures are modelled by an explicit `dbFail` input (a failing backing store),
and raising is modelled with `Except`. -/

/-- One row of the `oauth_tokens` table (`OAuthToken` in `oauth_token.py`). -/
structure OAuthTokenRow where
  client_id : Str
  integration_type : Str
  token_json : Str
  stored_at : Nat
  deriving Repr, DecidableEq

abbrev Store := List OAuthTokenRow

/-- The `WHERE` clause of both queries: match on the composite key. -/
def keyMatch (cid it : Str) (r : OAuthTokenRow) : Bool :=
  r.client_id == cid && r.integration_type == it

/-- Errors escaping the storage manager: a `SQLAlchemyError` from the backing
store, or the re-raised encryption failure from `encrypt_text`. -/
inductive StoreErr where
  | storage
  | encryptFailure
  deriving Repr, DecidableEq

/-- Model of `session.execute(select(...)).scalar_one_or_none()`:
`MultipleResultsFound` (a `SQLAlchemyError`) is raised when the filter
matches more than one row. -/
def scalarOneOrNone (store : Store) (cid it : Str) :
    Except StoreErr (Option OAuthTokenRow) :=
  match store.filter (keyMatch cid it) with
  | [] => .ok none
  | [r] => .ok (some r)
  | _ => .error .storage

/-- Model of `TokenStorageManager.write_token`.  `dbFail` models the backing
store raising `SQLAlchemyError`; with keys configured, a failing
`encrypt_text` is logged and re-raised, aborting the write.  On success the
new table contents are returned (update in place, or append of a new row). -/
def write_token (dbFail : Bool) (keys : List Str) (store : Store)
    (client_id : Str) (token_data : TokenData) (integration_type : Str)
    (now : Nat) : Except StoreErr Store :=
  if dbFail then .error .storage
  else
    match scalarOneOrNone store client_id integration_type with
    | .error e => .error e
    | .ok existing =>
      match
        (if keys.isEmpty then .ok (jsonDumps token_data)
         else
           match encrypt_text (jsonDumps token_data) keys with
           | some c => .ok c
           | none => .error .encryptFailure : Except StoreErr Str) with
      | .error e => .error e
      | .ok tj =>
        match existing with
        | some _ =>
          .ok (store.map (fun r =>
            if keyMatch client_id integration_type r then
              { r with token_json := tj, stored_at := now }
            else r))
        | none =>
          .ok (store ++ [⟨client_id, integration_type, tj, now⟩])

/-- Model of `TokenStorageManager.read_token`.  All `SQLAlchemyError`s are
caught and turned into `None`; decryption failure on an encrypted row and
JSON parse failure also yield `None`.  The `Except` result records that the
function itself never raises a storage error. -/
def read_token (dbFail : Bool) (keys : List Str) (store : Store)
    (client_id integration_type : Str) : Except StoreErr (Option TokenData) :=
  if dbFail then .ok none
  else
    match scalarOneOrNone store client_id integration_type with
    | .error _ => .ok none
    | .ok none => .ok none
    | .ok (some row) =>
      match decrypt_text row.token_json keys with
      | (data_str, true) =>
        match data_str with
        | none => .ok none
        | some ds => .ok (if ds.isEmpty then none else jsonLoads ds)
      | (_, false) =>
        .ok (if row.token_json.isEmpty then none else jsonLoads row.token_json)

/-- The store invariant: at most one row per (client_id, integration_type). -/
def StoreInv (store : Store) : Prop :=
  ∀ cid it : Str, (store.filter (keyMatch cid it)).length ≤ 1

/-- Encryption readiness: write succeeds either with no keys configured
(plaintext legacy mode) or with a constructible key ring. -/
def canWrite (keys : List Str) : Bool :=
  keys.isEmpty || (_build_fernet keys).isSome

/-- The payload string a successful write stores for `token_data`:
plaintext JSON without keys, the encrypted envelope with keys. -/
def storedJson (keys : List Str) (d : TokenData) : Str :=
  if keys.isEmpty then jsonDumps d
  else (encrypt_text (jsonDumps d) keys).getD []

/-! ### Store lemmas -/

theorem encrypt_text_isSome (pt : Str) (keys : List Str)
    (h : (_build_fernet keys).isSome = true) :
    encrypt_text pt keys = some (ciphertextTag ++
      multiEncrypt ((_build_fernet keys).getD []) pt) := by
  unfold encrypt_text
  cases hb : _build_fernet keys with
  | none => rw [hb] at h; cases h
  | some f => simp

/-- The in-place row update commutes with filtering, since it only changes
`token_json` and `stored_at` and therefore preserves every key predicate. -/
theorem filter_map_upd (l : Store) (c i c2 i2 : Str) (tj : Str) (now : Nat) :
    (l.map (fun r =>
      if keyMatch c i r then { r with token_json := tj, stored_at := now }
      else r)).filter (keyMatch c2 i2)
    = (l.filter (keyMatch c2 i2)).map (fun r =>
      if keyMatch c i r then { r with token_json := tj, stored_at := now }
      else r) := by
  induction l with
  | nil => rfl
  | cons a t ih =>
    simp only [List.map_cons, List.filter_cons]
    have hk : keyMatch c2 i2
        (if keyMatch c i a then { a with token_json := tj, stored_at := now }
         else a) = keyMatch c2 i2 a := by
      by_cases h : keyMatch c i a = true
      · rw [if_pos h]; simp [keyMatch]
      · rw [if_neg h]
    rw [hk]
    by_cases h2 : keyMatch c2 i2 a = true
    · simp [h2, ih]
    · simp [h2, ih]

theorem map_id_of_mem {α : Type} (l : List α) (f : α → α)
    (h : ∀ x ∈ l, f x = x) : l.map f = l := by
  induction l with
  | nil => rfl
  | cons a t ih =>
    simp only [List.map_cons]
    rw [h a (by simp), ih (fun x hx => h x (by simp [hx]))]

theorem keyMatch_self (cid it tj : Str) (n : Nat) :
    keyMatch cid it ⟨cid, it, tj, n⟩ = true := by
  simp [keyMatch]

theorem keyMatch_fields {cid it : Str} {r : OAuthTokenRow}
    (h : keyMatch cid it r = true) :
    r.client_id = cid ∧ r.integration_type = it := by
  unfold keyMatch at h
  simp only [Bool.and_eq_true, beq_iff_eq] at h
  exact h

/-- Characterization of a successful write: the rows for the written key
collapse to exactly the freshly written row, every other key's rows are
untouched. -/
theorem write_token_ok (keys : List Str) (store : Store) (cid it : Str)
    (d : TokenData) (now : Nat)
    (hinv : StoreInv store) (hck : canWrite keys = true) :
    ∃ s2, write_token false keys store cid d it now = .ok s2 ∧
      s2.filter (keyMatch cid it) = [⟨cid, it, storedJson keys d, now⟩] ∧
      ∀ c2 i2 : Str, ¬ (c2 = cid ∧ i2 = it) →
        s2.filter (keyMatch c2 i2) = store.filter (keyMatch c2 i2) := by
  have htj : (if keys.isEmpty then .ok (jsonDumps d)
      else
        match encrypt_text (jsonDumps d) keys with
        | some c => .ok c
        | none => .error .encryptFailure : Except StoreErr Str)
      = .ok (storedJson keys d) := by
    unfold canWrite at hck
    by_cases hke : keys.isEmpty = true
    · simp [hke, storedJson]
    · simp only [hke, Bool.false_or] at hck
      rw [encrypt_text_isSome _ _ hck]
      simp [hke, storedJson, encrypt_text_isSome _ _ hck]
  unfold write_token
  rw [if_neg (by simp)]
  have hle := hinv cid it
  unfold scalarOneOrNone
  cases hfil : store.filter (keyMatch cid it) with
  | nil =>
    rw [htj]
    refine ⟨store ++ [⟨cid, it, storedJson keys d, now⟩], rfl, ?_, ?_⟩
    · rw [List.filter_append, hfil, List.nil_append, List.filter_cons,
        keyMatch_self]
      rfl
    · intro c2 i2 hne
      rw [List.filter_append, List.filter_cons]
      have : keyMatch c2 i2 ⟨cid, it, storedJson keys d, now⟩ = false := by
        unfold keyMatch
        simp only [Bool.and_eq_false_iff]
        by_cases h1 : cid = c2
        · right
          simp only [beq_eq_false_iff_ne, ne_eq]
          intro h2
          exact hne ⟨h1.symm, h2.symm⟩
        · left
          simp only [beq_eq_false_iff_ne, ne_eq]
          exact h1
      rw [this]
      simp
  | cons r rest =>
    cases rest with
    | cons r2 rest2 =>
      rw [hfil] at hle
      simp at hle
    | nil =>
      rw [htj]
      have hrmem : r ∈ store.filter (keyMatch cid it) := by
        rw [hfil]; exact List.mem_singleton.mpr rfl
      have hrkey : keyMatch cid it r = true :=
        (List.mem_filter.mp hrmem).2
      obtain ⟨hrc, hri⟩ := keyMatch_fields hrkey
      refine ⟨_, rfl, ?_, ?_⟩
      · rw [filter_map_upd, hfil, List.map_cons, List.map_nil]
        rw [if_pos hrkey]
        cases r with
        | mk c0 i0 t0 s0 =>
          simp only at hrc hri
          rw [hrc, hri]
      · intro c2 i2 hne
        rw [filter_map_upd]
        apply map_id_of_mem
        intro x hx
        have hxkey : keyMatch c2 i2 x = true := (List.mem_filter.mp hx).2
        obtain ⟨hxc, hxi⟩ := keyMatch_fields hxkey
        rw [if_neg]
        intro hxm
        obtain ⟨h1, h2⟩ := keyMatch_fields hxm
        exact hne ⟨by rw [← hxc, h1], by rw [← hxi, h2]⟩

/-- A successful write preserves the at-most-one-row-per-key invariant. -/
theorem write_token_inv (keys : List Str) (store s2 : Store) (cid it : Str)
    (d : TokenData) (now : Nat)
    (hinv : StoreInv store) (hck : canWrite keys = true)
    (hw : write_token false keys store cid d it now = .ok s2) :
    StoreInv s2 := by
  obtain ⟨s3, hw3, hfil, hoth⟩ := write_token_ok keys store cid it d now hinv hck
  rw [hw3] at hw
  injection hw with hw
  subst hw
  intro c2 i2
  by_cases h : c2 = cid ∧ i2 = it
  · obtain ⟨rfl, rfl⟩ := h
    rw [hfil]
    simp
  · rw [hoth c2 i2 h]
    exact hinv c2 i2

/-- Reading back the row a successful write produced recovers the payload
dictionary, both in plaintext legacy mode and in encrypted mode. -/
theorem read_token_storedJson (keys : List Str) (store : Store) (cid it : Str)
    (d : TokenData) (now : Nat) (hck : canWrite keys = true)
    (hfil : store.filter (keyMatch cid it) = [⟨cid, it, storedJson keys d, now⟩]) :
    read_token false keys store cid it = .ok (some d) := by
  unfold read_token
  rw [if_neg (by simp)]
  unfold scalarOneOrNone
  rw [hfil]
  unfold canWrite at hck
  by_cases hke : keys.isEmpty = true
  · have hsj : storedJson keys d = jsonDumps d := by simp [storedJson, hke]
    have hnp : ciphertextTag.isPrefixOf (jsonDumps d) = false :=
      ciphertextTag_not_isPrefixOf_jsonDumps d
    simp only [hsj]
    unfold decrypt_text
    rw [if_pos (by simp [hnp])]
    rw [if_neg (by simpa using jsonDumps_ne_nil d)]
    rw [jsonLoads_jsonDumps]
  · simp only [hke, Bool.false_or] at hck
    have henc := encrypt_text_isSome (jsonDumps d) keys hck
    have hsj : storedJson keys d = ciphertextTag ++
        multiEncrypt ((_build_fernet keys).getD []) (jsonDumps d) := by
      simp [storedJson, hke, henc]
    have hdec := decrypt_text_encrypt_text (jsonDumps d) keys _ henc
    simp only [hsj, hdec]
    rw [if_neg (by simpa using jsonDumps_ne_nil d)]
    rw [jsonLoads_jsonDumps]

/-! ### Helper lemmas for wrong-key decryption and tagged values -/

theorem fernetDecrypt_wrong_key (k k2 pt : Str)
    (hlen : k.length = k2.length) (hne : k ≠ k2) :
    fernetDecrypt k (fernetEncrypt k2 pt) = none := by
  unfold fernetDecrypt fernetEncrypt
  rw [if_neg]
  intro hpre
  rw [List.isPrefixOf_iff_prefix] at hpre
  have h := List.prefix_iff_eq_take.mp hpre
  rw [hlen, List.take_left] at h
  exact hne h

theorem decrypt_text_tag (x : Str) (keys f : List Str)
    (hb : _build_fernet keys = some f) :
    decrypt_text (ciphertextTag ++ x) keys =
      (match multiDecrypt f x with
       | some pt => (some pt, true)
       | none => (none, true)) := by
  have hpre : ciphertextTag.isPrefixOf (ciphertextTag ++ x) = true := by
    rw [List.isPrefixOf_iff_prefix]; exact List.prefix_append _ _
  unfold decrypt_text
  rw [if_neg (by simp [hpre])]
  simp only [hb, List.drop_left]

/-! ### Concrete values used by witnesses and counterexamples -/

def keyA : Str := List.replicate 44 'A'
def keyB : Str := List.replicate 44 'B'
def keyC : Str := List.replicate 44 'C'
def badKey : Str := "short".toList
def ptHello : Str := "hello".toList
def clientC : Str := "user-1".toList
def slackIt : Str := "slack".toList
def dataC1 : TokenData := [("access_token".toList, "xoxb-one".toList)]
def dataC2 : TokenData := [("access_token".toList, "xoxb-two".toList)]

/-! ### Claim C1 -/

/-- C1: for every plaintext string and every non-empty list of valid Fernet
keys, decrypting the result of `encrypt_text plaintext keys` with the same
key list returns `(plaintext, true)`. -/
theorem c1_encrypt_decrypt_roundtrip (pt : Str) (keys : List Str)
    (hne : keys ≠ []) (hv : ∀ k ∈ keys, validFernetKey k = true) :
    ∃ ct, encrypt_text pt keys = some ct ∧
      decrypt_text ct keys = (some pt, true) := by
  have hb := _build_fernet_of_valid keys hne hv
  have henc : encrypt_text pt keys =
      some (ciphertextTag ++ multiEncrypt (keys.map pyStrip) pt) := by
    unfold encrypt_text
    rw [hb]
  exact ⟨_, henc, decrypt_text_encrypt_text pt keys _ henc⟩

/-- C1 witness: the round trip at one concrete key and plaintext. -/
theorem c1_witness :
    decrypt_text ((encrypt_text ptHello [keyA]).getD []) [keyA]
      = (some ptHello, true) := by
  obtain ⟨ct, h1, h2⟩ := c1_encrypt_decrypt_roundtrip ptHello [keyA]
    (by decide) (by decide)
  rw [h1, Option.getD_some]
  exact h2

/-! ### Claim C2 -/

/-- C2 counterexample: encrypting with key-ring `[k2, k1]` uses the first key
`k2` (MultiFernet encrypts with the newest key), so decrypting with `[k1]`
alone does NOT succeed: it returns `(none, true)`, refuting the claim that it
succeeds while k1 is still present. -/
theorem c2_counterexample :
    (encrypt_text ptHello [keyB, keyA]).isSome = true ∧
    decrypt_text ((encrypt_text ptHello [keyB, keyA]).getD []) [keyA]
      = (none, true) := by
  constructor <;> decide

/-- C2 amended: encrypting with key-ring `[k2, k1]` always uses the first
(newest) key `k2`, so decrypting with `[k2]` alone succeeds, while decrypting
with `[k1]` alone or with `[k3]` alone yields `(none, true)`. -/
theorem c2_rotation_amended (pt k1 k2 k3 : Str)
    (hv1 : validFernetKey k1 = true) (hv2 : validFernetKey k2 = true)
    (hv3 : validFernetKey k3 = true)
    (h12 : pyStrip k1 ≠ pyStrip k2) (h23 : pyStrip k2 ≠ pyStrip k3) :
    ∃ ct, encrypt_text pt [k2, k1] = some ct ∧
      decrypt_text ct [k2] = (some pt, true) ∧
      decrypt_text ct [k1] = (none, true) ∧
      decrypt_text ct [k3] = (none, true) := by
  have hlen1 := ((validFernetKey_iff k1).mp hv1).2
  have hlen2 := ((validFernetKey_iff k2).mp hv2).2
  have hlen3 := ((validFernetKey_iff k3).mp hv3).2
  have hb21 : _build_fernet [k2, k1] = some [pyStrip k2, pyStrip k1] :=
    _build_fernet_of_valid [k2, k1] (by simp)
      (by
        intro k hk
        rw [List.mem_cons, List.mem_singleton] at hk
        rcases hk with rfl | rfl
        · exact hv2
        · exact hv1)
  have hb1 : _build_fernet [k1] = some [pyStrip k1] :=
    _build_fernet_of_valid [k1] (by simp)
      (by intro k hk; rw [List.mem_singleton] at hk; subst hk; exact hv1)
  have hb2 : _build_fernet [k2] = some [pyStrip k2] :=
    _build_fernet_of_valid [k2] (by simp)
      (by intro k hk; rw [List.mem_singleton] at hk; subst hk; exact hv2)
  have hb3 : _build_fernet [k3] = some [pyStrip k3] :=
    _build_fernet_of_valid [k3] (by simp)
      (by intro k hk; rw [List.mem_singleton] at hk; subst hk; exact hv3)
  have henc : encrypt_text pt [k2, k1] =
      some (ciphertextTag ++ fernetEncrypt (pyStrip k2) pt) := by
    unfold encrypt_text
    rw [hb21]
    rfl
  refine ⟨_, henc, ?_, ?_, ?_⟩
  · rw [decrypt_text_tag _ _ _ hb2]
    simp [multiDecrypt, fernetDecrypt_encrypt]
  · rw [decrypt_text_tag _ _ _ hb1]
    have hnone : multiDecrypt [pyStrip k1] (fernetEncrypt (pyStrip k2) pt)
        = none := by
      unfold multiDecrypt
      rw [fernetDecrypt_wrong_key _ _ _ (by rw [hlen1, hlen2]) h12]
      rfl
    simp [hnone]
  · rw [decrypt_text_tag _ _ _ hb3]
    have hnone : multiDecrypt [pyStrip k3] (fernetEncrypt (pyStrip k2) pt)
        = none := by
      unfold multiDecrypt
      rw [fernetDecrypt_wrong_key _ _ _ (by rw [hlen3, hlen2])
        (fun h => h23 h.symm)]
      rfl
    simp [hnone]

/-- C2 witness: the amended rotation property at concrete keys. -/
theorem c2_witness :
    decrypt_text ((encrypt_text ptHello [keyB, keyA]).getD []) [keyB]
      = (some ptHello, true) ∧
    decrypt_text ((encrypt_text ptHello [keyB, keyA]).getD []) [keyC]
      = (none, true) := by
  obtain ⟨ct, h1, h2, h3, h4⟩ := c2_rotation_amended ptHello keyA keyB keyC
    (by decide) (by decide) (by decide) (by decide) (by decide)
  rw [h1, Option.getD_some]
  exact ⟨h2, h4⟩

/-! ### Claim C4 -/

/-- Two sequential writes for the same (client_id, integration_type) pair. -/
def upsertTwice (keys : List Str) (store : Store) (cid it : Str)
    (d1 d2 : TokenData) (n1 n2 : Nat) : Except StoreErr Store :=
  (write_token false keys store cid d1 it n1).bind
    (fun s1 => write_token false keys s1 cid d2 it n2)

/-- C4: for every pair the store holds at most one record; writes are
upserts, so writing T1 then T2 for the same pair succeeds and leaves exactly
one record for the pair, holding T2's payload with `stored_at` refreshed to
the second write's timestamp, and reading the pair back returns T2. -/
theorem c4_write_upsert (keys : List Str) (store : Store) (cid it : Str)
    (d1 d2 : TokenData) (n1 n2 : Nat)
    (hinv : StoreInv store) (hck : canWrite keys = true) :
    (upsertTwice keys store cid it d1 d2 n1 n2).isOk = true ∧
    ((upsertTwice keys store cid it d1 d2 n1 n2).toOption.getD []).filter
      (keyMatch cid it) = [⟨cid, it, storedJson keys d2, n2⟩] ∧
    StoreInv ((upsertTwice keys store cid it d1 d2 n1 n2).toOption.getD []) ∧
    read_token false keys
      ((upsertTwice keys store cid it d1 d2 n1 n2).toOption.getD []) cid it
      = .ok (some d2) := by
  obtain ⟨s1, hw1, hfil1, hoth1⟩ := write_token_ok keys store cid it d1 n1 hinv hck
  have hinv1 : StoreInv s1 := write_token_inv keys store s1 cid it d1 n1 hinv hck hw1
  obtain ⟨s2, hw2, hfil2, hoth2⟩ := write_token_ok keys s1 cid it d2 n2 hinv1 hck
  have hinv2 : StoreInv s2 := write_token_inv keys s1 s2 cid it d2 n2 hinv1 hck hw2
  have hups : upsertTwice keys store cid it d1 d2 n1 n2 = .ok s2 := by
    unfold upsertTwice
    rw [hw1]
    exact hw2
  rw [hups]
  exact ⟨rfl, hfil2, hinv2,
    read_token_storedJson keys s2 cid it d2 n2 hck hfil2⟩

/-- C4 witness: the upsert property at concrete inputs (no keys configured,
empty initial store). -/
theorem c4_witness :
    (upsertTwice [] [] clientC slackIt dataC1 dataC2 1 2).isOk = true ∧
    ((upsertTwice [] [] clientC slackIt dataC1 dataC2 1 2).toOption.getD
      []).filter (keyMatch clientC slackIt)
      = [⟨clientC, slackIt, storedJson [] dataC2, 2⟩] ∧
    StoreInv ((upsertTwice [] [] clientC slackIt dataC1 dataC2 1 2).toOption.getD []) ∧
    read_token false []
      ((upsertTwice [] [] clientC slackIt dataC1 dataC2 1 2).toOption.getD [])
      clientC slackIt = .ok (some dataC2) :=
  c4_write_upsert [] [] clientC slackIt dataC1 dataC2 1 2
    (fun _ _ => by simp) (by decide)

/-! ### Claim C8 -/

/-- C8 counterexample: with NO keys configured at all, `write_token` does not
abort — it succeeds and silently stores the payload as plaintext JSON (the
encryption branch is skipped because `TOKEN_ENCRYPTION_KEYS` is falsy),
refuting the part of the claim that says the write aborts whenever no keys
are configured. -/
theorem c8_counterexample :
    write_token false [] [] clientC dataC1 slackIt 5
      = .ok [⟨clientC, slackIt, jsonDumps dataC1, 5⟩] ∧
    ciphertextTag.isPrefixOf (jsonDumps dataC1) = false := by
  exact ⟨rfl, by decide⟩

/-- C8 amended: `encrypt_text` fails fast (raises) whenever no usable key
ring can be built — both with an empty key list and with invalid keys.  When
keys ARE configured but invalid, the store's write re-raises the encryption
failure and aborts.  When no keys are configured at all, the write skips
encryption and stores plaintext JSON (legacy mode).  Decrypting an
`enc:v1:`-prefixed value with no keys configured returns `(none, true)`. -/
theorem c8_config_error_amended :
    (∀ pt keys, _build_fernet keys = none → encrypt_text pt keys = none) ∧
    (∀ (store : Store) (cid : Str) (d : TokenData) (it : Str) (now : Nat)
      (keys : List Str), StoreInv store → keys ≠ [] → _build_fernet keys = none →
      write_token false keys store cid d it now = .error .encryptFailure) ∧
    (∀ ct : Str, decrypt_text (ciphertextTag ++ ct) [] = (none, true)) ∧
    (∀ (store : Store) (cid : Str) (d : TokenData) (it : Str) (now : Nat),
      store.filter (keyMatch cid it) = [] →
      write_token false [] store cid d it now
        = .ok (store ++ [⟨cid, it, jsonDumps d, now⟩])) := by
  refine ⟨?_, ?_, ?_, ?_⟩
  · intro pt keys hb
    unfold encrypt_text
    rw [hb]
  · intro store cid d it now keys hinv hne hb
    unfold write_token
    rw [if_neg (by simp)]
    have henc : encrypt_text (jsonDumps d) keys = none := by
      unfold encrypt_text
      rw [hb]
    have hke : keys.isEmpty = false := by
      cases keys with
      | nil => exact absurd rfl hne
      | cons a t => rfl
    have hle := hinv cid it
    unfold scalarOneOrNone
    cases hfil : store.filter (keyMatch cid it) with
    | nil => simp [hke, henc]
    | cons r rest =>
      cases rest with
      | nil => simp [hke, henc]
      | cons r2 rest2 =>
        rw [hfil] at hle
        simp at hle
  · intro ct
    have hpre : ciphertextTag.isPrefixOf (ciphertextTag ++ ct) = true := by
      rw [List.isPrefixOf_iff_prefix]; exact List.prefix_append _ _
    unfold decrypt_text
    rw [if_neg (by simp [hpre])]
    rfl
  · intro store cid d it now hfil
    unfold write_token scalarOneOrNone
    rw [if_neg (by simp), hfil]
    rfl

/-- C8 witness: the amended behavior at concrete inputs — a configured but
invalid key aborts the write; a tagged value with no keys decrypts to
`(none, true)`; no keys at all stores plaintext. -/
theorem c8_witness :
    write_token false [badKey] [] clientC dataC1 slackIt 3
      = .error .encryptFailure ∧
    decrypt_text (ciphertextTag ++ "zzz".toList) [] = (none, true) ∧
    write_token false [] [] clientC dataC1 slackIt 3
      = .ok [⟨clientC, slackIt, jsonDumps dataC1, 3⟩] :=
  ⟨c8_config_error_amended.2.1 [] clientC dataC1 slackIt 3 [badKey]
    (fun _ _ => by simp) (by decide) (by decide),
   c8_config_error_amended.2.2.1 _,
   c8_config_error_amended.2.2.2 [] clientC dataC1 slackIt 3 (by decide)⟩

/-! ### Claim C9 -/

/-- C9 counterexample: when the backing store raises on read, `read_token`
does not propagate any error — it catches the `SQLAlchemyError` and returns
`None`, indistinguishable from a missing record, refuting the claim that
storage-layer errors propagate from both operations. -/
theorem c9_counterexample :
    read_token true [] [] clientC slackIt = .ok none ∧
    read_token true [] [] clientC slackIt ≠ .error .storage ∧
    read_token true [] [] clientC slackIt ≠ .error .encryptFailure := by
  refine ⟨rfl, fun h => ?_, fun h => ?_⟩
  · exact Except.noConfusion h
  · exact Except.noConfusion h

/-- C9 amended: storage-layer errors propagate to the caller from
`write_token` (the `SQLAlchemyError` is logged and re-raised), while
`read_token` catches them and returns `None` as if no token were stored;
only write callers can decide whether to retry. -/
theorem c9_error_propagation_amended (keys : List Str) (store : Store)
    (cid : Str) (d : TokenData) (it : Str) (now : Nat) :
    write_token true keys store cid d it now = .error .storage ∧
    read_token true keys store cid it = .ok none := by
  constructor <;> rfl

/-! ### JWT middleware (`JWTAuthMiddleware` in `middleware/auth.py`)

The `pyjwt` library is modelled by its contract: a token carries an
(unverified) header with optional `kid` and `alg`, an actual signing
algorithm and verification key, an expiry bit, issuer/audience claims, and a
claim set.  `pyjwt.decode` fails with `ExpiredSignatureError` on an expired
token and with an `InvalidTokenError` subclass on a malformed token, a
signature that the given key/algorithms do not verify, or an issuer/audience
mismatch. -/

/-- One JWK from the fetched key set: key id, key type, and the public key
it denotes. -/
structure Jwk where
  kid : Str
  kty : Str
  keyMaterial : Str
  deriving Repr, DecidableEq

/-- Model of a raw bearer token as seen by `pyjwt`. -/
structure JwtToken where
  headerOk : Bool
  kid : Option Str
  alg : Option Str
  sigAlg : Str
  sigKey : Str
  expired : Bool
  iss : Option Str
  aud : Option Str
  claims : TokenData
  deriving Repr, DecidableEq

inductive PyJwtError where
  | expiredSignature
  | invalidToken
  deriving Repr, DecidableEq

/-- The issuer/audience checks of `pyjwt.decode`: enforced only when
configured. -/
def claimOk (expected actual : Option Str) : Bool :=
  match expected with
  | none => true
  | some v => actual == some v

/-- Contract model of `pyjwt.decode(token, key, algorithms, issuer?, audience?)`. -/
def pyjwtDecode (t : JwtToken) (key : Str) (algs : List Str)
    (iss aud : Option Str) : Except PyJwtError TokenData :=
  if ¬ t.headerOk then .error .invalidToken
  else if ¬ algs.contains t.sigAlg then .error .invalidToken
  else if ¬ (t.sigKey == key) then .error .invalidToken
  else if t.expired then .error .expiredSignature
  else if ¬ claimOk iss t.iss then .error .invalidToken
  else if ¬ claimOk aud t.aud then .error .invalidToken
  else .ok t.claims

/-- Model of `RSAAlgorithm.from_jwk` / `ECAlgorithm.from_jwk` in
`_get_public_key_from_jwks`: key construction succeeds for the RSA and EC
key types handled there; the generic fallback raises for other key types
(exception caught, loop continues). -/
def keyFromJwk (j : Jwk) : Option Str :=
  if j.kty == "RSA".toList then some j.keyMaterial
  else if j.kty == "EC".toList then some j.keyMaterial
  else none

/-- The loop of `_get_public_key_from_jwks`: scan the fetched keys for a
matching `kid`; a failing key construction is caught and the scan continues. -/
def findKeyForKid : List Jwk → Str → Option Str
  | [], _ => none
  | j :: rest, kid =>
    if j.kid == kid then
      match keyFromJwk j with
      | some k => some k
      | none => findKeyForKid rest kid
    else findKeyForKid rest kid

/-- Model of `_get_public_key_from_jwks`: a malformed token (unreadable
header) or a header without `kid` yields `None`; otherwise the fetched key
set is scanned. -/
def _get_public_key_from_jwks (jwks : List Jwk) (t : JwtToken) : Option Str :=
  if ¬ t.headerOk then none
  else
    match t.kid with
    | none => none
    | some kid => findKeyForKid jwks kid

/-- Configuration of `JWTAuthMiddleware` relevant to verification. -/
structure MwConfig where
  secret_key : Option Str
  issuer : Option Str
  audience : Option Str
  jwks_url : Option Str
  deriving Repr, DecidableEq

/-- Model of `JWTAuthMiddleware.verify_token`; `jwks` is the key set that
`_fetch_jwks` currently returns.  Every failure of the underlying library is
caught and mapped to `None` — the function never raises. -/
def verify_token (cfg : MwConfig) (jwks : List Jwk) (t : JwtToken) :
    Option TokenData :=
  match cfg.jwks_url with
  | some _ =>
    match _get_public_key_from_jwks jwks t with
    | none => none
    | some pk =>
      match pyjwtDecode t pk
        (match (if t.headerOk then t.alg else none) with
         | some a => [a]
         | none => ["RS256".toList])
        cfg.issuer cfg.audience with
      | .ok p => some p
      | .error _ => none
  | none =>
    match cfg.secret_key with
    | some sk =>
      match pyjwtDecode t sk ["HS256".toList] cfg.issuer cfg.audience with
      | .ok p => some p
      | .error _ => none
    | none => none

/-! ### JWKS cache (`_fetch_jwks` in `middleware/auth.py`) -/

/-- The mutable cache state: `cache = none` models the initial empty dict
(falsy); any fetched or failure-initialized value is `some keys` (the stored
dict always has a `keys` member and is truthy). -/
structure JwksState where
  cache : Option (List Jwk)
  last_fetch : Nat
  deriving Repr, DecidableEq

/-- The JSON shapes the fetch can return, before normalization. -/
inductive JwksResponse where
  | withKeysField (ks : List Jwk)
  | asList (ks : List Jwk)
  | malformed
  deriving Repr, DecidableEq

/-- The normalization in `_fetch_jwks`: a dict with a `keys` member is kept,
a bare list is wrapped, anything else becomes an empty key set. -/
def normalizeJwks : JwksResponse → List Jwk
  | .withKeysField ks => ks
  | .asList ks => ks
  | .malformed => []

/-- Result of one `_fetch_jwks` call: the new cache state, the returned key
set, and whether a network request was attempted. -/
structure FetchOutcome where
  state : JwksState
  keys : List Jwk
  networkCall : Bool
  deriving Repr, DecidableEq

/-- Model of `_fetch_jwks`.  `net = none` models the HTTP request raising
(timeout, non-2xx, bad JSON); `now` is `time.time()`. -/
def _fetch_jwks (url : Option Str) (ttl : Nat) (st : JwksState) (now : Nat)
    (net : Option JwksResponse) : FetchOutcome :=
  match url with
  | none => ⟨st, [], false⟩
  | some _ =>
    if st.cache.isSome ∧ now - st.last_fetch < ttl then
      ⟨st, st.cache.getD [], false⟩
    else
      match net with
      | some resp => ⟨⟨some (normalizeJwks resp), now⟩, normalizeJwks resp, true⟩
      | none =>
        match st.cache with
        | some c => ⟨st, c, true⟩
        | none => ⟨⟨some [], st.last_fetch⟩, [], true⟩

/-! ### `on_message` (header passthrough then JWT flow) -/

/-- The request-scoped outcome of `on_message`: the `user_id` and
`jwt_payload` context states it sets, and whether `verify_token` ran. -/
structure OnMessageResult where
  user_id : Option Str
  jwt_payload : Option TokenData
  verify_called : Bool
  deriving Repr, DecidableEq

/-- `headers.get(name)` on the (lowercased) header dict. -/
def lookupHeader (hs : List (Str × Str)) (name : Str) : Option Str :=
  (hs.find? (fun kv => kv.1 == name)).map (fun kv => kv.2)

/-- `payload.get(key)` on a decoded claim set. -/
def dictGet (d : TokenData) (k : Str) : Option Str :=
  (d.find? (fun kv => kv.1 == k)).map (fun kv => kv.2)

/-- Model of `JWTAuthMiddleware.on_message`.  `bearer` is the token that
`extract_token_from_context` would return from the `authorization` header;
`hasCtx` models `context.fastmcp_context` being present.  When the
passthrough feature is on and the configured header holds a non-empty value
(and a context exists), the identity is taken from the header and the
function returns before the JWT flow runs. -/
def on_message (cfg : MwConfig) (allow_user_id_header : Bool)
    (user_id_header_name : Str) (jwks : List Jwk)
    (headers : List (Str × Str)) (bearer : Option JwtToken)
    (hasCtx : Bool) : OnMessageResult :=
  match
    (if allow_user_id_header then
      match lookupHeader headers user_id_header_name with
      | some uid => if ¬ uid.isEmpty ∧ hasCtx then some uid else none
      | none => none
    else none) with
  | some uid =>
    ⟨some uid, some [("sub".toList, uid), ("auth".toList, "header".toList)],
      false⟩
  | none =>
    match bearer with
    | none => ⟨none, none, false⟩
    | some t =>
      match verify_token cfg jwks t with
      | some payload =>
        if hasCtx then ⟨dictGet payload "sub".toList, some payload, true⟩
        else ⟨none, none, true⟩
      | none => ⟨none, none, true⟩

/-! ### Verifier lemmas -/

theorem pyjwtDecode_ok_inv {t : JwtToken} {key : Str} {algs : List Str}
    {iss aud : Option Str} {p : TokenData}
    (h : pyjwtDecode t key algs iss aud = .ok p) :
    t.headerOk = true ∧ t.expired = false ∧ t.sigKey = key ∧
    claimOk iss t.iss = true ∧ claimOk aud t.aud = true := by
  unfold pyjwtDecode at h
  split_ifs at h with h1 h2 h3 h4 h5 h6
  all_goals first
    | exact Except.noConfusion h
    | (refine ⟨?_, ?_, ?_, ?_, ?_⟩ <;> simp_all)

/-- Verification returns `None` (not an exception) whenever the underlying
decode cannot succeed with the configured issuer/audience, whatever key
material is found. -/
theorem verify_token_eq_none (cfg : MwConfig) (jwks : List Jwk) (t : JwtToken)
    (hno : ∀ (key : Str) (algs : List Str) (p : TokenData),
      pyjwtDecode t key algs cfg.issuer cfg.audience ≠ .ok p) :
    verify_token cfg jwks t = none := by
  unfold verify_token
  cases hj : cfg.jwks_url with
  | none =>
    cases hs : cfg.secret_key with
    | none => rfl
    | some sk =>
      show (match pyjwtDecode t sk ["HS256".toList] cfg.issuer cfg.audience with
        | .ok p => some p
        | .error _ => none) = none
      cases hd : pyjwtDecode t sk ["HS256".toList] cfg.issuer cfg.audience with
      | error e => rfl
      | ok p => exact absurd hd (hno _ _ _)
  | some u =>
    cases hk : _get_public_key_from_jwks jwks t with
    | none => rfl
    | some pk =>
      show (match pyjwtDecode t pk
          (match (if t.headerOk then t.alg else none) with
           | some a => [a]
           | none => ["RS256".toList]) cfg.issuer cfg.audience with
        | .ok p => some p
        | .error _ => none) = none
      cases hd : pyjwtDecode t pk
          (match (if t.headerOk then t.alg else none) with
           | some a => [a]
           | none => ["RS256".toList]) cfg.issuer cfg.audience with
      | error e => rfl
      | ok p => exact absurd hd (hno _ _ _)

theorem get_public_key_none_of_kid (jwks : List Jwk) (t : JwtToken)
    (h : t.kid = none) : _get_public_key_from_jwks jwks t = none := by
  unfold _get_public_key_from_jwks
  by_cases h1 : t.headerOk = true
  · rw [if_neg (by simp [h1]), h]
  · rw [if_pos (by simpa using h1)]

theorem findKeyForKid_none (jwks : List Jwk) (kid : Str)
    (h : ∀ j ∈ jwks, j.kid ≠ kid) : findKeyForKid jwks kid = none := by
  induction jwks with
  | nil => rfl
  | cons j rest ih =>
    unfold findKeyForKid
    rw [if_neg (by simpa using h j (by simp))]
    exact ih (fun j2 hm => h j2 (by simp [hm]))

theorem get_public_key_none_of_no_match (jwks : List Jwk) (t : JwtToken)
    (h : ∀ j ∈ jwks, some j.kid ≠ t.kid) :
    _get_public_key_from_jwks jwks t = none := by
  unfold _get_public_key_from_jwks
  by_cases h1 : t.headerOk = true
  · rw [if_neg (by simp [h1])]
    cases hk : t.kid with
    | none => rfl
    | some kid =>
      exact findKeyForKid_none jwks kid
        (fun j hm he => h j hm (by rw [he, hk]))
  · rw [if_pos (by simpa using h1)]

theorem verify_token_none_of_no_key (cfg : MwConfig) (jwks : List Jwk)
    (t : JwtToken) (u : Str) (hj : cfg.jwks_url = some u)
    (hk : _get_public_key_from_jwks jwks t = none) :
    verify_token cfg jwks t = none := by
  unfold verify_token
  rw [hj, hk]

/-! ### Claim C5 -/

/-- C5: token verification never raises past its boundary — an expired
signature, a malformed token, an invalid signature (wrong key), an
issuer/audience claim mismatch, missing key material, and a JWKS-mode token
whose header lacks `kid` or whose `kid` matches no fetched key all make
`verify_token` return `None` (unauthenticated), never an exception. -/
theorem c5_verify_never_raises (cfg : MwConfig) (jwks : List Jwk)
    (t : JwtToken) :
    (cfg.jwks_url = none → cfg.secret_key = none →
      verify_token cfg jwks t = none) ∧
    (t.expired = true → verify_token cfg jwks t = none) ∧
    (t.headerOk = false → verify_token cfg jwks t = none) ∧
    (∀ sk, cfg.jwks_url = none → cfg.secret_key = some sk → t.sigKey ≠ sk →
      verify_token cfg jwks t = none) ∧
    (∀ i, cfg.issuer = some i → t.iss ≠ some i →
      verify_token cfg jwks t = none) ∧
    (∀ a, cfg.audience = some a → t.aud ≠ some a →
      verify_token cfg jwks t = none) ∧
    (∀ u, cfg.jwks_url = some u → t.kid = none →
      verify_token cfg jwks t = none) ∧
    (∀ u, cfg.jwks_url = some u → (∀ j ∈ jwks, some j.kid ≠ t.kid) →
      verify_token cfg jwks t = none) := by
  refine ⟨?_, ?_, ?_, ?_, ?_, ?_, ?_, ?_⟩
  · intro h1 h2
    simp [verify_token, h1, h2]
  · intro he
    apply verify_token_eq_none
    intro key algs p hd
    have := (pyjwtDecode_ok_inv hd).2.1
    rw [he] at this
    cases this
  · intro hh
    apply verify_token_eq_none
    intro key algs p hd
    have := (pyjwtDecode_ok_inv hd).1
    rw [hh] at this
    cases this
  · intro sk h1 h2 hne
    unfold verify_token
    rw [h1, h2]
    show (match pyjwtDecode t sk ["HS256".toList] cfg.issuer cfg.audience with
      | .ok p => some p
      | .error _ => none) = none
    cases hd : pyjwtDecode t sk ["HS256".toList] cfg.issuer cfg.audience with
    | error e => rfl
    | ok p => exact absurd (pyjwtDecode_ok_inv hd).2.2.1 hne
  · intro i hi hne
    apply verify_token_eq_none
    intro key algs p hd
    have := (pyjwtDecode_ok_inv hd).2.2.2.1
    rw [hi] at this
    unfold claimOk at this
    exact hne (by simpa using this)
  · intro a ha hne
    apply verify_token_eq_none
    intro key algs p hd
    have := (pyjwtDecode_ok_inv hd).2.2.2.2
    rw [ha] at this
    unfold claimOk at this
    exact hne (by simpa using this)
  · intro u hj hkid
    exact verify_token_none_of_no_key cfg jwks t u hj
      (get_public_key_none_of_kid jwks t hkid)
  · intro u hj hnm
    exact verify_token_none_of_no_key cfg jwks t u hj
      (get_public_key_none_of_no_match jwks t hnm)

def cfgNoKeys : MwConfig := ⟨none, none, none, none⟩

def tokExpired : JwtToken :=
  ⟨true, none, some "HS256".toList, "HS256".toList, "secret".toList,
   true, none, none, [("sub".toList, "alice".toList)]⟩

/-- C5 witness: concrete unauthenticated outcomes — missing key material,
and an expired token under an HS256 configuration. -/
theorem c5_witness :
    verify_token cfgNoKeys [] tokExpired = none ∧
    verify_token ⟨some "secret".toList, none, none, none⟩ [] tokExpired
      = none :=
  ⟨(c5_verify_never_raises cfgNoKeys [] tokExpired).1 rfl rfl,
   (c5_verify_never_raises ⟨some "secret".toList, none, none, none⟩ []
      tokExpired).2.1 rfl⟩

/-! ### Claim C6 -/

/-- C6: the JWKS fetch refetches over the network only when the cache is
empty or at least TTL old; a second fetch within the TTL window after a
successful fetch makes no network call and serves the same keys; a fetch
failure with an existing cache retains and serves the prior key set; a fetch
failure with no prior cache yields an empty key set. -/
theorem c6_jwks_cache (url : Option Str) (u : Str) (ttl : Nat)
    (st : JwksState) (now now2 : Nat) (net net2 : Option JwksResponse)
    (resp : JwksResponse) :
    ((_fetch_jwks url ttl st now net).networkCall = true →
      st.cache = none ∨ ttl ≤ now - st.last_fetch) ∧
    ((_fetch_jwks (some u) ttl st now (some resp)).networkCall = true →
      now2 - now < ttl →
      (_fetch_jwks (some u) ttl
        (_fetch_jwks (some u) ttl st now (some resp)).state now2
        net2).networkCall = false ∧
      (_fetch_jwks (some u) ttl
        (_fetch_jwks (some u) ttl st now (some resp)).state now2 net2).keys
        = (_fetch_jwks (some u) ttl st now (some resp)).keys) ∧
    (∀ c, st.cache = some c →
      (_fetch_jwks (some u) ttl st now none).keys = c ∧
      (_fetch_jwks (some u) ttl st now none).state = st) ∧
    (st.cache = none →
      (_fetch_jwks (some u) ttl st now none).keys = [] ∧
      (_fetch_jwks (some u) ttl st now none).networkCall = true ∧
      (_fetch_jwks (some u) ttl st now none).state.cache = some []) := by
  refine ⟨?_, ?_, ?_, ?_⟩
  · intro hnet
    cases url with
    | none => cases hnet
    | some u2 =>
      unfold _fetch_jwks at hnet
      by_cases hf : st.cache.isSome = true ∧ now - st.last_fetch < ttl
      · rw [if_pos hf] at hnet
        cases hnet
      · rcases Decidable.not_and_iff_or_not.mp hf with h | h
        · left
          exact Option.not_isSome_iff_eq_none.mp (by simpa using h)
        · right
          exact Nat.le_of_not_lt h
  · intro hnet hfresh
    unfold _fetch_jwks at hnet ⊢
    by_cases hf : st.cache.isSome = true ∧ now - st.last_fetch < ttl
    · rw [if_pos hf] at hnet
      cases hnet
    · rw [if_neg hf] at hnet ⊢
      rw [if_pos ⟨by simp, hfresh⟩]
      exact ⟨rfl, rfl⟩
  · intro c hc
    unfold _fetch_jwks
    by_cases hf : st.cache.isSome = true ∧ now - st.last_fetch < ttl
    · rw [if_pos hf]
      simp [hc]
    · rw [if_neg hf, hc]
      exact ⟨rfl, rfl⟩
  · intro hc
    unfold _fetch_jwks
    rw [if_neg (by simp [hc]), hc]
    exact ⟨rfl, rfl, rfl⟩

/-- C6 witness: a failed fetch with empty cache at concrete values. -/
theorem c6_witness :
    (_fetch_jwks (some "https://jwks".toList) 3600 ⟨none, 0⟩ 10 none).keys
      = [] ∧
    (_fetch_jwks (some "https://jwks".toList) 3600 ⟨none, 0⟩ 10
      none).networkCall = true ∧
    (_fetch_jwks (some "https://jwks".toList) 3600 ⟨none, 0⟩ 10
      none).state.cache = some [] :=
  (c6_jwks_cache (some "https://jwks".toList) "https://jwks".toList 3600
    ⟨none, 0⟩ 10 11 none none .malformed).2.2.2 rfl

/-! ### Claim C10 -/

/-- C10: with the header passthrough feature enabled and the configured
user-id header present (non-empty) on a request with a context, `on_message`
takes the identity from the header and returns before the bearer-token flow
runs — for every `bearer`, including a present and valid one — recording the
provenance payload `sub ↦ user_id, auth ↦ header` and never calling
`verify_token`. -/
theorem c10_header_passthrough (cfg : MwConfig) (name : Str)
    (jwks : List Jwk) (headers : List (Str × Str))
    (bearer : Option JwtToken) (uid : Str)
    (hlk : lookupHeader headers name = some uid) (hne : uid ≠ []) :
    on_message cfg true name jwks headers bearer true =
      ⟨some uid,
       some [("sub".toList, uid), ("auth".toList, "header".toList)],
       false⟩ := by
  unfold on_message
  rw [hlk]
  simp [List.isEmpty_iff, hne]

def hdrName : Str := "x-user-id".toList
def aliceId : Str := "alice".toList

/-- A token that verifies successfully under the HS256 secret `secret`. -/
def tokGood : JwtToken :=
  ⟨true, none, some "HS256".toList, "HS256".toList, "secret".toList,
   false, none, none, [("sub".toList, "bob".toList)]⟩

/-- C10 witness: with passthrough enabled, the header identity wins even
though a valid bearer token for `bob` is also present. -/
theorem c10_witness :
    on_message ⟨some "secret".toList, none, none, none⟩ true hdrName []
      [(hdrName, aliceId)] (some tokGood) true =
      ⟨some aliceId,
       some [("sub".toList, aliceId), ("auth".toList, "header".toList)],
       false⟩ ∧
    verify_token ⟨some "secret".toList, none, none, none⟩ [] tokGood
      = some [("sub".toList, "bob".toList)] :=
  ⟨c10_header_passthrough ⟨some "secret".toList, none, none, none⟩ hdrName
    [] [(hdrName, aliceId)] (some tokGood) aliceId (by decide) (by decide),
   by decide⟩

/-! ### Google service readers (`services/google/service.py`)

`GoogleService` queries the `oauth_tokens` table directly (not through
`TokenStorageManager`) and parses the raw `token_json` column with
`json.loads`, with no decryption step. -/

def googleIt : Str := "google".toList

/-- Model of `GoogleService._get_oauth_token`:
`db.query(OAuthToken).filter_by(client_id=..., integration_type="google").first()`. -/
def _get_oauth_token (store : Store) (cid : Str) : Option OAuthTokenRow :=
  store.find? (keyMatch cid googleIt)

/-- Decimal parse of an `expires_in` value (JSON numbers are carried as
decimal strings in the payload model). -/
def decimalNat? (s : Str) : Option Nat :=
  if s.isEmpty then none
  else s.foldl (fun acc c =>
    acc.bind (fun n =>
      if c.isDigit then some (n * 10 + (c.toNat - '0'.toNat)) else none))
    (some 0)

/-- Model of `GoogleService._is_token_expired`:
`now >= stored_at + timedelta(seconds=token_data.get("expires_in", 3600))`. -/
def _is_token_expired (td : TokenData) (stored_at now : Nat) : Bool :=
  stored_at + (((dictGet td "expires_in".toList).bind decimalNat?).getD 3600)
    ≤ now

inductive GoogleErr where
  | jsonDecode
  | notAuthenticated
  deriving Repr, DecidableEq

/-- Model of the body of `GoogleService.is_authenticated` (the coroutine's
own behavior when actually awaited).  It reads the raw `token_json` column
and parses it DIRECTLY as JSON: `.error .jsonDecode` models the uncaught
`json.loads` failure on a non-JSON payload such as the `enc:v1:` envelope.
`refresh_ok` models the outcome of the refresh POST for an expired token. -/
def google_is_authenticated (store : Store) (cid : Str) (now : Nat)
    (refresh_ok : Bool) : Except GoogleErr Bool :=
  match _get_oauth_token store cid with
  | none => .ok false
  | some row =>
    match jsonLoads row.token_json with
    | none => .error .jsonDecode
    | some td =>
      if _is_token_expired td row.stored_at now then
        if refresh_ok then .ok true else .ok false
      else .ok true

/-- Model of the read performed by `GoogleService._get_authenticated_service`
up to credential construction: again the raw `token_json` is parsed directly
as JSON; no row raises `ValueError("Not authenticated with Google")`. -/
def google_service_read (store : Store) (cid : Str) :
    Except GoogleErr TokenData :=
  match _get_oauth_token store cid with
  | none => .error .notAuthenticated
  | some row =>
    match jsonLoads row.token_json with
    | none => .error .jsonDecode
    | some td => .ok td

/-! ### Claim C3 -/

/-- C3 (code bug): the storage manager's `read_token` does transparently
handle both persisted forms, but the Google read paths do not — on a record
whose `token_json` carries the `enc:v1:` prefix, `is_authenticated` and
`_get_authenticated_service` feed the raw envelope to `json.loads`, which
raises instead of returning the decrypted token data. -/
theorem c3_encrypted_record_readers (keys : List Str) (d : TokenData)
    (cid : Str) (n now : Nat) (rok : Bool)
    (hck : (_build_fernet keys).isSome = true) (hne : keys.isEmpty = false) :
    read_token false keys
      [⟨cid, googleIt, (encrypt_text (jsonDumps d) keys).getD [], n⟩]
      cid googleIt = .ok (some d) ∧
    google_is_authenticated
      [⟨cid, googleIt, (encrypt_text (jsonDumps d) keys).getD [], n⟩]
      cid now rok = .error .jsonDecode ∧
    google_service_read
      [⟨cid, googleIt, (encrypt_text (jsonDumps d) keys).getD [], n⟩]
      cid = .error .jsonDecode := by
  have henc := encrypt_text_isSome (jsonDumps d) keys hck
  have hgd : (encrypt_text (jsonDumps d) keys).getD []
      = ciphertextTag ++ multiEncrypt ((_build_fernet keys).getD [])
        (jsonDumps d) := by
    rw [henc, Option.getD_some]
  have hsj : storedJson keys d = (encrypt_text (jsonDumps d) keys).getD [] := by
    unfold storedJson
    rw [if_neg (by simp [hne])]
  refine ⟨?_, ?_, ?_⟩
  · apply read_token_storedJson keys _ cid googleIt d n
      (by unfold canWrite; rw [hne, hck]; rfl)
    rw [List.filter_cons, keyMatch_self]
    simp [hsj]
  · unfold google_is_authenticated _get_oauth_token
    rw [List.find?_cons_of_pos _ (keyMatch_self cid googleIt _ n)]
    show (match jsonLoads ((encrypt_text (jsonDumps d) keys).getD []) with
      | none => Except.error GoogleErr.jsonDecode
      | some td =>
        if _is_token_expired td n now then
          if rok then Except.ok true else Except.ok false
        else Except.ok true) = Except.error GoogleErr.jsonDecode
    rw [hgd, jsonLoads_tagged]
  · unfold google_service_read _get_oauth_token
    rw [List.find?_cons_of_pos _ (keyMatch_self cid googleIt _ n)]
    show (match jsonLoads ((encrypt_text (jsonDumps d) keys).getD []) with
      | none => Except.error GoogleErr.jsonDecode
      | some td => Except.ok td) = Except.error GoogleErr.jsonDecode
    rw [hgd, jsonLoads_tagged]

/-- C3 witness: a concrete encrypted Google record — `read_token` recovers
the payload, both Google readers raise a JSON decode error. -/
theorem c3_witness :
    read_token false [keyA]
      [⟨clientC, googleIt, (encrypt_text (jsonDumps dataC1) [keyA]).getD [], 7⟩]
      clientC googleIt = .ok (some dataC1) ∧
    google_is_authenticated
      [⟨clientC, googleIt, (encrypt_text (jsonDumps dataC1) [keyA]).getD [], 7⟩]
      clientC 8 true = .error .jsonDecode ∧
    google_service_read
      [⟨clientC, googleIt, (encrypt_text (jsonDumps dataC1) [keyA]).getD [], 7⟩]
      clientC = .error .jsonDecode :=
  c3_encrypted_record_readers [keyA] dataC1 clientC 7 8 true
    (by decide) (by decide)

/-! ### Slack session resolution (`services/slack/slack_service.py`) -/

def slackScopes : List Str :=
  ["chat:write".toList, "channels:read".toList, "groups:read".toList,
   "im:read".toList, "mpim:read".toList]

def hexDigit (n : Nat) : Char := "0123456789ABCDEF".toList.getD n 'X'

/-- Model of `urllib.parse.quote` (default `safe='/'`) on ASCII text. -/
def quoteChar (c : Char) : Str :=
  if c.isAlphanum ∨ c ∈ ['_', '.', '-', '~', '/'] then [c]
  else ['%', hexDigit (c.toNat / 16 % 16), hexDigit (c.toNat % 16)]

def urlQuote (s : Str) : Str := s.foldr (fun c acc => quoteChar c ++ acc) []

/-- Model of `urllib.parse.quote_plus` as used by `urlencode`. -/
def quotePlusChar (c : Char) : Str :=
  if c = ' ' then ['+']
  else if c.isAlphanum ∨ c ∈ ['_', '.', '-', '~'] then [c]
  else ['%', hexDigit (c.toNat / 16 % 16), hexDigit (c.toNat % 16)]

def urlQuotePlus (s : Str) : Str :=
  s.foldr (fun c acc => quotePlusChar c ++ acc) []

/-- The dict returned by `SlackBotAPIService.get_oauth_url` (static
instruction text omitted); `requires_auth` is the flag `from_context` adds. -/
structure SlackOAuthData where
  oauth_url : Str
  callback_url : Str
  state : Str
  requires_auth : Bool
  deriving Repr, DecidableEq

/-- Model of `SlackBotAPIService.get_oauth_url`.  The identity is re-read
from the context's `jwt_payload`; a payload without `sub` renders as the
Python literal `None` inside the f-string. -/
def slack_get_oauth_url (slack_client_id slack_redirect_uri : Str)
    (jwt_payload : Option TokenData) : SlackOAuthData :=
  { oauth_url := "https://slack.com/oauth/v2/authorize?client_id=".toList
      ++ slack_client_id
      ++ "&scope=".toList ++ List.intercalate [','] slackScopes
      ++ "&redirect_uri=".toList ++ urlQuote slack_redirect_uri
      ++ "&state=client_id:".toList ++ slackJwtClientId jwt_payload
    callback_url := slack_redirect_uri
    state := "client_id:".toList ++ slackJwtClientId jwt_payload
    requires_auth := false }
where
  slackJwtClientId : Option TokenData → Str
    | some p => (dictGet p "sub".toList).getD "None".toList
    | none => []

inductive SlackResolveOutcome where
  | raised
  | authRequired (d : SlackOAuthData)
  | service (bot_token : Str)
  deriving Repr, DecidableEq

/-- Model of `SlackBotAPIService.from_context`: read the stored Slack token
for the context identity; without a usable `access_token`, return the OAuth
dict with `requires_auth` set; otherwise construct the service (whose
constructor raises unless the token starts with `xoxb-`). -/
def slack_from_context (dbFail : Bool) (keys : List Str) (store : Store)
    (jwt_payload : Option TokenData)
    (slack_client_id slack_redirect_uri : Str) : SlackResolveOutcome :=
  match
    (match jwt_payload.bind (fun p => dictGet p "sub".toList) with
     | none => Except.ok none
     | some uid => read_token dbFail keys store uid slackIt) with
  | .error _ => .raised
  | .ok td? =>
    match td?.bind (fun td => dictGet td "access_token".toList) with
    | none =>
      .authRequired
        { slack_get_oauth_url slack_client_id slack_redirect_uri jwt_payload
            with requires_auth := true }
    | some tok =>
      if tok.isEmpty then
        .authRequired
          { slack_get_oauth_url slack_client_id slack_redirect_uri jwt_payload
              with requires_auth := true }
      else if "xoxb-".toList.isPrefixOf tok then .service tok
      else .raised

/-! ### Google session resolution (`services/google/auth_tools.py`) -/

def googleAuthUrlBase : Str :=
  "https://accounts.google.com/o/oauth2/v2/auth".toList

def urlencodePairs (ps : List (Str × Str)) : Str :=
  List.intercalate ['&'] (ps.map (fun kv => kv.1 ++ '=' :: urlQuotePlus kv.2))

/-- Model of `GoogleService.get_oauth_url`: `none` models the `ValueError`
raised when the Google client id or the configured scopes are missing. -/
def google_get_oauth_url (google_client_id : Option Str) (scopes : List Str)
    (redirect_uri client_id : Str) : Option Str :=
  match google_client_id with
  | none => none
  | some g =>
    if scopes.isEmpty then none
    else some (googleAuthUrlBase ++ '?' ::
      urlencodePairs
        [("client_id".toList, g),
         ("redirect_uri".toList, redirect_uri),
         ("response_type".toList, "code".toList),
         ("scope".toList, List.intercalate [' '] scopes),
         ("access_type".toList, "offline".toList),
         ("prompt".toList, "consent".toList),
         ("state".toList, client_id)])

/-- Any Python coroutine object is truthy. -/
def coroutineIsTruthy : Bool := true

inductive GoogleResolveOutcome where
  | noDbSession
  | authRequired (oauth_url : Option Str) (user_id : Str)
  | service (client_id : Str)
  deriving Repr, DecidableEq

/-- Model of `_get_google_service` in `auth_tools.py`.  The guard is
`if not google_service.is_authenticated():` WITHOUT `await`: the call yields
a coroutine object, which is always truthy, so the `requires_auth` branch is
unreachable and the service wrapper is returned even when no token record
exists for the identity. -/
def _get_google_service (store : Store) (user_id : Str) (hasDb : Bool)
    (google_client_id : Option Str) (scopes : List Str)
    (redirect_uri : Str) : GoogleResolveOutcome :=
  if ¬ hasDb then .noDbSession
  else if ¬ coroutineIsTruthy then
    .authRequired (google_get_oauth_url google_client_id scopes redirect_uri
      user_id) user_id
  else .service user_id

/-! ### Claim C7 -/

/-- C7 (code bug): for an identity with no stored token record, the Slack
resolver returns the requires_auth OAuth payload whose consent URL and
`state` embed the identity, rather than an access token; the Google
resolver, because `is_authenticated()` is called without `await` (the
coroutine object is truthy), returns the service wrapper instead of the
AuthorizationRequired payload, even though the awaited authentication check
is false. -/
theorem c7_absent_token (keys : List Str) (store : Store) (uid : Str)
    (scid sruri gruri : Str) (gcid : Option Str) (scopes : List Str)
    (now : Nat) (rok : Bool)
    (hnoSlack : store.filter (keyMatch uid slackIt) = [])
    (hnoGoogle : _get_oauth_token store uid = none) :
    slack_from_context false keys store (some [("sub".toList, uid)]) scid
      sruri = .authRequired
        { slack_get_oauth_url scid sruri (some [("sub".toList, uid)])
            with requires_auth := true } ∧
    (slack_get_oauth_url scid sruri (some [("sub".toList, uid)])).state
      = "client_id:".toList ++ uid ∧
    ("&state=client_id:".toList ++ uid).isSuffixOf
      (slack_get_oauth_url scid sruri
        (some [("sub".toList, uid)])).oauth_url = true ∧
    google_is_authenticated store uid now rok = .ok false ∧
    _get_google_service store uid true gcid scopes gruri = .service uid := by
  have hdg : dictGet [("sub".toList, uid)] "sub".toList = some uid := by
    unfold dictGet
    rw [List.find?_cons_of_pos _ (by simp)]
    rfl
  have hjid : slack_get_oauth_url.slackJwtClientId
      (some [("sub".toList, uid)]) = uid := by
    show (dictGet [("sub".toList, uid)] "sub".toList).getD "None".toList = uid
    rw [hdg, Option.getD_some]
  have hread : read_token false keys store uid slackIt = .ok none := by
    unfold read_token scalarOneOrNone
    rw [if_neg (by simp), hnoSlack]
  refine ⟨?_, ?_, ?_, ?_, ?_⟩
  · unfold slack_from_context
    simp only [Option.some_bind, hdg, hread, Option.none_bind]
  · show "client_id:".toList ++ slack_get_oauth_url.slackJwtClientId
      (some [("sub".toList, uid)]) = "client_id:".toList ++ uid
    rw [hjid]
  · show ("&state=client_id:".toList ++ uid).isSuffixOf
      ("https://slack.com/oauth/v2/authorize?client_id=".toList ++ scid
        ++ "&scope=".toList ++ List.intercalate [','] slackScopes
        ++ "&redirect_uri=".toList ++ urlQuote sruri
        ++ "&state=client_id:".toList
        ++ slack_get_oauth_url.slackJwtClientId
            (some [("sub".toList, uid)])) = true
    rw [hjid, List.isSuffixOf_iff_suffix]
    exact ⟨_, (List.append_assoc _ "&state=client_id:".toList uid).symm⟩
  · unfold google_is_authenticated
    rw [hnoGoogle]
  · rfl

/-- C7 witness: the resolution outcomes at concrete inputs with an empty
store (no record for any identity). -/
theorem c7_witness :
    slack_from_context false [] [] (some [("sub".toList, aliceId)])
      "SC".toList "https://cb".toList = .authRequired
        { slack_get_oauth_url "SC".toList "https://cb".toList
            (some [("sub".toList, aliceId)]) with requires_auth := true } ∧
    (slack_get_oauth_url "SC".toList "https://cb".toList
      (some [("sub".toList, aliceId)])).state
      = "client_id:".toList ++ aliceId ∧
    ("&state=client_id:".toList ++ aliceId).isSuffixOf
      (slack_get_oauth_url "SC".toList "https://cb".toList
        (some [("sub".toList, aliceId)])).oauth_url = true ∧
    google_is_authenticated [] aliceId 0 true = .ok false ∧
    _get_google_service [] aliceId true (some "GC".toList)
      ["mail".toList] "https://gcb".toList = .service aliceId :=
  c7_absent_token [] [] aliceId "SC".toList "https://cb".toList
    "https://gcb".toList (some "GC".toList) ["mail".toList] 0 true rfl rfl

end Bernerspace
